import Mathlib

/-!
Verification of the registrant CRUD service (`src/api/index.js`).

The service's core logic — heterogeneous date parsing, plan/expiry
computation, status classification, the whitelist-driven field mapper
used to build parameterized insert/update statements, and the lazy
status reconciler — is embedded below as executable Lean definitions,
one per source function, and the behavioural properties are proved as
theorems about those definitions.

Modelling conventions:
* A JavaScript `Date` is represented at millisecond granularity by an
  `Instant`: a calendar day index (days since 1970-01-01, as produced
  by the standard civil-from-days correspondence) together with the
  milliseconds elapsed within that day.  `Invalid Date` is represented
  by `none` in an `Option Instant`; comparisons against `NaN` are
  `false`, which the definitions reproduce explicitly.
* A JavaScript value reaching the date utilities is a `JSVal`;
  `JSVal.undefined` is `undefined`, and a request body or stored row cell
  maps every key to a `JSVal` (missing keys map to `.undefined`).
* `new Date(string)` (the engine's direct parser, V8) is modelled by
  `jsDirectParse` on the string shapes relevant to this service:
  year-first `Y-M-D`, US `M-D-Y` / `M/D/Y`, and `D Mon Y` /
  `D-Mon-Y` with English month names and two-digit-year windowing.
* The relational store is a `List Row`; SQL `WHERE` clauses become
  list filters, and the extra user-selected filters of the list
  endpoint are abstracted as an arbitrary conjoined predicate.
-/

namespace T1

/-- An instant of time: a calendar day index and the milliseconds of
time-of-day within that day. -/
structure Instant where
  day : Int
  ms : Nat
deriving DecidableEq

/-- JavaScript values that can reach the date utilities and the field
mapper: `undefined`, `null`, booleans, numbers, strings, valid `Date`
objects and the `Invalid Date` object. -/
inductive JSVal where
  | undefined
  | null
  | bool (b : Bool)
  | num (n : Int)
  | str (s : String)
  | date (i : Instant)
  | invalidDate
deriving DecidableEq

/-- JavaScript truthiness of a `JSVal` (`!value` in the source negates
this).  An `Invalid Date` object is truthy. -/
def jsTruthy : JSVal → Bool
  | .undefined => false
  | .null => false
  | .bool b => b
  | .num n => n != 0
  | .str s => s != ""
  | .date _ => true
  | .invalidDate => true

/-- JavaScript `String.prototype.toLowerCase`, computed character by
character (kernel-reducible, unlike `String.toLower`). -/
def jsToLowerCase (s : String) : String :=
  String.mk (s.data.map Char.toLower)

/-- Strict `<` on instants (lexicographic on day, then time-of-day),
matching comparison of JavaScript `Date` objects. -/
def Instant.ltb (a b : Instant) : Bool :=
  a.day < b.day || (a.day == b.day && a.ms < b.ms)

/-- `setHours(0,0,0,0)`: strip the time-of-day of an instant. -/
def startOfDay (i : Instant) : Instant := ⟨i.day, 0⟩

/-- A `Date` built from a raw epoch value `n` in milliseconds. -/
def ofEpochMs (n : Int) : Instant :=
  ⟨n.ediv 86400000, (n.emod 86400000).toNat⟩

/- ## Civil-calendar arithmetic -/

/-- Leap-year predicate of the proleptic Gregorian calendar. -/
def isLeap (y : Int) : Bool :=
  (y % 4 == 0 && y % 100 != 0) || y % 400 == 0

/-- Number of days in month `m` of year `y`. -/
def daysInMonth (y m : Int) : Int :=
  if m = 4 ∨ m = 6 ∨ m = 9 ∨ m = 11 then 30
  else if m = 2 then (if isLeap y then 29 else 28)
  else 31

/-- Whether `(y, m, d)` is a real calendar date. -/
def validCivil (y m d : Int) : Bool :=
  1 ≤ m && m ≤ 12 && 1 ≤ d && d ≤ daysInMonth y m

/-- Day index (days since 1970-01-01) of the civil date `(y, m, d)`,
by the standard days-from-civil correspondence. -/
def daysFromCivil (y m d : Int) : Int :=
  let y1 := y - (if m ≤ 2 then 1 else 0)
  let era := y1.fdiv 400
  let yoe := y1 - era * 400
  let doy := (153 * (m + (if m > 2 then -3 else 9)) + 2).fdiv 5 + d - 1
  let doe := yoe * 365 + yoe.fdiv 4 - yoe.fdiv 100 + doy
  era * 146097 + doe - 719468

/-- The midnight instant of the civil date `(y, m, d)` when it is a
real date, `none` (JS `Invalid Date`) otherwise. -/
def mkCivil (y m d : Int) : Option Instant :=
  if validCivil y m d then some ⟨daysFromCivil y m d, 0⟩ else none

/- ## String scanning helpers (character-list based) -/

/-- Split a character list at every separator satisfying `p`
(separators are dropped; empty fields are kept, as with a regex
character class between captures). -/
def splitChars (p : Char → Bool) : List Char → List Char → List (List Char)
  | [], acc => [acc.reverse]
  | c :: rest, acc =>
    if p c then acc.reverse :: splitChars p rest []
    else splitChars p rest (c :: acc)

/-- All characters are ASCII digits. -/
def allDigits (l : List Char) : Bool := l.all Char.isDigit

/-- Numeric value of a digit list. -/
def digitsVal (l : List Char) : Nat :=
  l.foldl (fun a c => a * 10 + (c.toNat - 48)) 0

/-- A numeric field of between `lo` and `hi` digits, as in the source's
regex captures such as `(\d{1,2})`. -/
def numField (l : List Char) (lo hi : Nat) : Option Int :=
  if lo ≤ l.length && l.length ≤ hi && allDigits l then
    some (Int.ofNat (digitsVal l))
  else none

/-- Month number of an English month name (or 3-letter abbreviation),
case-insensitively, as accepted by the engine's date parser. -/
def monthOfName (w : List Char) : Option Int :=
  let lw := String.mk (w.map Char.toLower)
  if lw = "jan" ∨ lw = "january" then some 1
  else if lw = "feb" ∨ lw = "february" then some 2
  else if lw = "mar" ∨ lw = "march" then some 3
  else if lw = "apr" ∨ lw = "april" then some 4
  else if lw = "may" then some 5
  else if lw = "jun" ∨ lw = "june" then some 6
  else if lw = "jul" ∨ lw = "july" then some 7
  else if lw = "aug" ∨ lw = "august" then some 8
  else if lw = "sep" ∨ lw = "september" then some 9
  else if lw = "oct" ∨ lw = "october" then some 10
  else if lw = "nov" ∨ lw = "november" then some 11
  else if lw = "dec" ∨ lw = "december" then some 12
  else none

/-- Year-first numeric date (`YYYY-M-D`). -/
def tryYMD : List (List Char) → Option Instant
  | [y, m, d] => do
    let y' ← numField y 4 4
    let m' ← numField m 1 2
    let d' ← numField d 1 2
    mkCivil y' m' d'
  | _ => none

/-- US-style numeric date (`M-D-YYYY` or `M/D/YYYY`), the engine's
legacy interpretation of numeric triples with a trailing 4-digit year. -/
def tryMDY : List (List Char) → Option Instant
  | [m, d, y] => do
    let m' ← numField m 1 2
    let d' ← numField d 1 2
    let y' ← numField y 4 4
    mkCivil y' m' d'
  | _ => none

/-- `D Mon Y` with an English month name; a year of at most two digits
is windowed (00–49 → 2000s, 50–99 → 1900s) as in the legacy parser. -/
def tryDMonY : List (List Char) → Option Instant
  | [d, mon, y] => do
    let d' ← numField d 1 2
    let m' ← monthOfName mon
    let yv ← numField y 1 4
    let y' := if y.length ≤ 2 then (if yv < 50 then 2000 + yv else 1900 + yv) else yv
    mkCivil y' m' d'
  | _ => none

/-- Model of the engine's direct `new Date(string)` parser on the
string shapes relevant to this service; `none` is `Invalid Date`. -/
def jsDirectParse (s : String) : Option Instant :=
  let cs := s.toList
  let dashParts := splitChars (fun c => c == '-') cs []
  let sepParts := splitChars (fun c => c == '-' || c == '/') cs []
  let spaceParts := splitChars (fun c => c == ' ') cs []
  tryYMD dashParts <|> tryMDY sepParts <|> tryDMonY spaceParts <|>
    tryDMonY sepParts

/-- The source's `dmy` regex: one-or-two-digit day, separator (dash or
slash), one-or-two-digit month, separator, four-digit year, anchored at
both ends; returns the captured day, month and year values. -/
def matchDMY (s : String) : Option (Int × Int × Int) :=
  match splitChars (fun c => c == '-' || c == '/') s.toList [] with
  | [d, m, y] => do
    let d' ← numField d 1 2
    let m' ← numField m 1 2
    let y' ← numField y 4 4
    pure (d', m', y')
  | _ => none

/-- The source's `dmy2` regex: one-or-two-digit day, separator (dash or
slash), a word of 3+ word-characters, separator, a 2-to-4-digit year,
anchored at both ends; returns the captured day, month word and year,
where a 2-digit year is prefixed with `20`. -/
def matchDMY2 (s : String) : Option (Int × List Char × Int) :=
  match splitChars (fun c => c == '-' || c == '/') s.toList [] with
  | [d, mon, y] =>
    if 3 ≤ mon.length && mon.all (fun c => c.isAlphanum || c == '_') then do
      let d' ← numField d 1 2
      let yv ← numField y 2 4
      let y' := if y.length = 2 then 2000 + yv else yv
      pure (d', mon, y')
    else none
  | _ => none

/-- Number of decimal digits of a natural number. -/
def natDigitLen (n : Nat) : Nat :=
  if h : n < 10 then 1 else 1 + natDigitLen (n / 10)
decreasing_by
  exact Nat.div_lt_self (by omega) (by omega)

/-- Length of `String(n)` for a JavaScript number `n` (sign included). -/
def jsNumStrLen (n : Int) : Nat :=
  (if n < 0 then 1 else 0) + natDigitLen n.natAbs

/-- The string is a plain digit string (so `isNaN` is false on it). -/
def strIsNumeric (s : String) : Bool :=
  s.toList ≠ [] && allDigits s.toList

/-- `parseAnyDate` (src/api/index.js:56-97): convert an arbitrary value
into a `Date`, with the source's priority order: falsy → now; valid
`Date` → unchanged; numeric with 10+ characters → epoch seconds or
milliseconds; direct parse; `D-M-YYYY` regex; `D-Mon-YY(YY)` regex;
fallback → now.  The result `none` is JS `Invalid Date`. -/
def parseAnyDate (value : JSVal) (now : Instant) : Option Instant :=
  if !jsTruthy value then some now
  else
    match value with
    | .date i => some i
    | .invalidDate => some now
    | .num n =>
      if 10 ≤ jsNumStrLen n then
        some (ofEpochMs (if n > 1000000000000 then n else n * 1000))
      else some (ofEpochMs n)
    | .bool _ => some (ofEpochMs 1)
    | .str s =>
      if strIsNumeric s && 10 ≤ s.length then
        let n : Int := Int.ofNat (digitsVal s.toList)
        some (ofEpochMs (if n > 1000000000000 then n else n * 1000))
      else
        match jsDirectParse s with
        | some i => some i
        | none =>
          match matchDMY s with
          | some (d, m, y) => mkCivil y m d
          | none =>
            match matchDMY2 s with
            | some (d, mon, y) => (monthOfName mon).bind (fun m => mkCivil y m d)
            | none => some now
    | .undefined => some now
    | .null => some now

/- ## Plan rules, expiry calculator, status classifier -/

/-- A Plan Rule: price and validity window in days. -/
structure PlanRule where
  amount : Int
  valid_days : Int
deriving DecidableEq

/-- The `entry` Plan Rule (`PLAN_MAP.entry`). -/
def entryRule : PlanRule := ⟨100, 10⟩

/-- `PLAN_MAP` (src/api/index.js:48-53): the static plan table. -/
def PLAN_MAP (key : String) : Option PlanRule :=
  if key = "entry" then some entryRule
  else if key = "silver" then some ⟨1770, 90⟩
  else if key = "gold" then some ⟨2950, 180⟩
  else if key = "platinum" then some ⟨4720, 365⟩
  else none

/-- `(plan || "entry").toLowerCase()`: the lookup key for a possibly
absent (or empty, hence falsy) plan identifier. -/
def planKeyOf (plan : Option String) : String :=
  jsToLowerCase (match plan with
    | none => "entry"
    | some s => if s = "" then "entry" else s)

/-- `PLAN_MAP[key] || PLAN_MAP.entry`: the effective Plan Rule. -/
def planRuleOf (plan : Option String) : PlanRule :=
  (PLAN_MAP (planKeyOf plan)).getD entryRule

/-- `calculateexpiry_date` (src/api/index.js:99-109): resolve the plan
rule, normalize the registration date, and add `valid_days` calendar
days (`setDate` keeps the time-of-day).  Returns
`(expiry_date, amount, valid_days)`. -/
def calculateexpiry_date (reg_date : JSVal) (plan : Option String) (now : Instant) :
    Option Instant × Int × Int :=
  let rule := planRuleOf plan
  let reg := parseAnyDate reg_date now
  let expiry := reg.map (fun i => ⟨i.day + rule.valid_days, i.ms⟩)
  (expiry, rule.amount, rule.valid_days)

/-- `getplan_status` (src/api/index.js:111-116): parse the expiry value
and compare against the start of the current day; an `Invalid Date`
compares `false` with `<`, yielding `"active"`. -/
def getplan_status (expiry_date : JSVal) (now : Instant) : String :=
  match parseAnyDate expiry_date now with
  | none => "active"
  | some exp => if Instant.ltb exp (startOfDay now) then "expired" else "active"

/- ## Rows, responses, bodies -/

/-- A stored registrant row, restricted to the columns the core logic
reads or writes; the many opaque pass-through attributes (name,
contact and biodata fields) are not semantically modelled. -/
structure Row where
  id : Int
  regno : Int
  is_deleted : Bool
  plan : Option String
  reg_date : Option Instant
  amount : Int
  valid_days : Int
  expiry_date : Option Instant
  plan_status : Option String
deriving DecidableEq

/-- The observable HTTP outcomes of the handlers. -/
inductive Response where
  | badRequest (msg : String)
  | notFound (msg : String)
  | conflict (msg : String)
  | okUser (u : Row)
  | created (u : Row)
  | okExists (b : Bool)
deriving DecidableEq

/-- A stored nullable date column read back as a JS value. -/
def jsOfDateCol : Option Instant → JSVal
  | none => .null
  | some i => .date i

/-- A stored nullable text column read back as a JS value. -/
def jsOfStrCol : Option String → JSVal
  | none => .null
  | some s => .str s

/-- A computed `Date` (possibly invalid) stored into a body field. -/
def jsOfParsed : Option Instant → JSVal
  | none => .invalidDate
  | some i => .date i

/-- A request body (or the `updates` object): a total map from keys to
JS values, `.undefined` meaning the key is absent. -/
def Body : Type := String → JSVal

/-- `body[k] = v`. -/
def bset (b : Body) (k : String) (v : JSVal) : Body :=
  fun k' => if k' = k then v else b k'

/-- `if (body[k]) body[k] = parseAnyDate(body[k])` — the conditional
date normalization applied to `reg_date`, `dob`, etc. -/
def normalizeDateField (b : Body) (k : String) (now : Instant) : Body :=
  if jsTruthy (b k) then bset b k (jsOfParsed (parseAnyDate (b k) now)) else b

/- ## Status reconciler -/

/-- `updateplan_statusInDB` (src/api/index.js:234-247): recompute the
status from the stored expiry date; if it differs from the stored
status (case-insensitively) attempt a correcting write.  `storeOk`
says whether that write succeeds; on failure the `catch` block returns
the lowercased stored status (defaulting to `"expired"`).  `none` is
the `null` returned for a row without an id. -/
def updateplan_statusInDB (row : Row) (now : Instant) (storeOk : Bool) :
    Option String :=
  if row.id = 0 then none
  else
    let status := getplan_status (jsOfDateCol row.expiry_date) now
    let stored := jsToLowerCase (row.plan_status.getD "")
    if status ≠ stored then
      if storeOk then some (jsToLowerCase status)
      else
        some (jsToLowerCase (if row.plan_status.getD "" = "" then "expired"
               else row.plan_status.getD ""))
    else some (jsToLowerCase status)

/-- The list endpoint's per-row post-processing
(src/api/index.js:536-542): `mapped.plan_status = currentStatus ||
mapped.plan_status`. -/
def listReconcileRow (r : Row) (now : Instant) (storeOk : Bool) : Row :=
  match updateplan_statusInDB r now storeOk with
  | none => r
  | some s => if s = "" then r else { r with plan_status := some s }

/-- The list query's row selection (src/api/index.js:405-512): the
filter list always begins with `is_deleted = false`; every further
search/filter clause only conjoins, so it is abstracted as `extra`.
(Ordering and pagination do not affect the properties below.) -/
def listWhere (db : List Row) (extra : Row → Bool) : List Row :=
  db.filter (fun r => !r.is_deleted && extra r)

/-- `GET /api/users`: selected rows after reconciliation. -/
def listUsers (db : List Row) (extra : Row → Bool) (now : Instant)
    (storeOk : Bool) : List Row :=
  (listWhere db extra).map (fun r => listReconcileRow r now storeOk)

/- ## Field mapper -/

/-- The insert/update statement builder (src/api/index.js:341-356 and
853-863): iterate the whitelist in declaration order and, for every
key the body defines, emit the statically configured column name
paired with the body's value (bound as statement parameter number
`position-in-list`). -/
def buildPairs (mapping : List (String × String)) (body : Body) :
    List (String × JSVal) :=
  match mapping with
  | [] => []
  | kc :: rest =>
    if body kc.1 ≠ .undefined then (kc.2, body kc.1) :: buildPairs rest body
    else buildPairs rest body

/-- The whitelist of the create handler (src/api/index.js:276-339);
every external key maps to the identical column name. -/
def createCols : List String :=
  ["regno", "name", "gender", "caste", "caste_category", "gothram",
   "food_habits", "reg_date", "plan", "amount", "payment_mode",
   "transaction_id", "valid_days", "expiry_date", "plan_status",
   "new_or_renewal", "marital_status", "dob", "yob", "age",
   "time_of_birth", "place_of_birth", "height", "weight", "star",
   "paadham", "rasi", "lagnam", "dosham", "education", "ug_degree",
   "ug_specialization", "pg_degree", "pg_specialization", "occupation",
   "annual_income", "father_name", "father_occupation", "mother_name",
   "mother_occupation", "sibling_details", "native_place",
   "current_residence", "address", "city", "pincode", "state",
   "country", "own_house", "property_details", "expectations",
   "remarks", "flashed_date", "renewal_date", "renewal_amount",
   "contact1", "contact2", "contact3", "email", "created_by",
   "is_deleted", "created_at"]

/-- Create-handler whitelist as (external key, storage column) pairs. -/
def createMapping : List (String × String) := createCols.map (fun s => (s, s))

/-- The whitelist of the update handler (src/api/index.js:787-851). -/
def updateCols : List String :=
  ["regno", "name", "gender", "caste", "caste_category", "gothram",
   "food_habits", "reg_date", "plan", "amount", "payment_mode",
   "transaction_id", "valid_days", "expiry_date", "plan_status",
   "new_or_renewal", "marital_status", "dob", "yob", "age",
   "time_of_birth", "place_of_birth", "height", "weight", "star",
   "paadham", "rasi", "lagnam", "dosham", "education", "ug_degree",
   "ug_specialization", "pg_degree", "pg_specialization", "occupation",
   "annual_income", "father_name", "father_occupation", "mother_name",
   "mother_occupation", "sibling_details", "native_place",
   "current_residence", "address", "city", "pincode", "state",
   "country", "ownHouse", "property_details", "expectations",
   "remarks", "flashed_date", "renewal_date", "renewal_amount",
   "contact1", "contact2", "contact3", "email", "created_by",
   "modified_by", "deleted_by", "is_deleted"]

/-- Update-handler whitelist as (external key, storage column) pairs. -/
def updateMapping : List (String × String) := updateCols.map (fun s => (s, s))

/-- Apply one bound column/value to a row.  Only the semantically
modelled columns change the `Row`; opaque pass-through columns (and
ill-typed values, which the store would reject) leave it unchanged. -/
def applyColumn (r : Row) (cv : String × JSVal) : Row :=
  match cv.1, cv.2 with
  | "id", .num n => { r with id := n }
  | "regno", .num n => { r with regno := n }
  | "is_deleted", .bool b => { r with is_deleted := b }
  | "plan", .str s => { r with plan := some s }
  | "plan", .null => { r with plan := none }
  | "plan_status", .str s => { r with plan_status := some s }
  | "plan_status", .null => { r with plan_status := none }
  | "reg_date", .date i => { r with reg_date := some i }
  | "reg_date", .null => { r with reg_date := none }
  | "amount", .num n => { r with amount := n }
  | "valid_days", .num n => { r with valid_days := n }
  | "expiry_date", .date i => { r with expiry_date := some i }
  | "expiry_date", .null => { r with expiry_date := none }
  | _, _ => r

/-- Materialize a built statement against a row. -/
def applyColumns (r : Row) (ps : List (String × JSVal)) : Row :=
  ps.foldl applyColumn r

/- ## Create handler -/

/-- `body.plan` as used by the create handler: a present non-empty
string, else the `entry` default (the plan field is a text column). -/
def jsPlanString (v : JSVal) : String :=
  match v with
  | .str s => if s = "" then "entry" else s
  | _ => "entry"

/-- The create handler's date normalization (src/api/index.js:256-259). -/
def createNormBody (body : Body) (now : Instant) : Body :=
  let b := normalizeDateField body "reg_date" now
  let b := normalizeDateField b "dob" now
  let b := normalizeDateField b "flashed_date" now
  normalizeDateField b "renewal_date" now

/-- The create handler's plan calculation (src/api/index.js:262-264):
lowercased plan (defaulting to `entry`) and the expiry triple. -/
def createCalc (body : Body) (now : Instant) : Option Instant × Int × Int :=
  calculateexpiry_date (createNormBody body now "reg_date")
    (some (jsToLowerCase (jsPlanString (createNormBody body now "plan")))) now

/-- The create handler's body preparation (src/api/index.js:253-273):
normalize the date fields, compute plan price/validity/expiry/status,
overwrite the corresponding body fields, and force the system values
`is_deleted = false` and `created_at = now`. -/
def createAugBody (body : Body) (now : Instant) : Body :=
  let b := createNormBody body now
  let c := createCalc body now
  let b := bset b "amount" (.num c.2.1)
  let b := bset b "valid_days" (.num c.2.2)
  let b := bset b "expiry_date" (jsOfParsed c.1)
  let b := bset b "plan_status" (.str (jsToLowerCase (getplan_status (jsOfParsed c.1) now)))
  let b := bset b "is_deleted" (.bool false)
  bset b "created_at" (.date now)

/-- Result of a write endpoint: the HTTP response and the parameterized
statement issued against the store (`none` when no statement ran). -/
structure WriteResult where
  resp : Response
  stmt : Option (List (String × JSVal))
deriving DecidableEq

/-- `POST /api/users` (src/api/index.js:251-374).  `newId` is the
store-assigned internal identifier, `dupRegno` whether the insert hits
the unique-regno constraint (error code 23505 → 409). -/
def createUser (body : Body) (now : Instant) (newId : Int) (dupRegno : Bool) :
    WriteResult :=
  let pairs := buildPairs createMapping (createAugBody body now)
  if pairs = [] then ⟨.badRequest "No fields provided", none⟩
  else if dupRegno then ⟨.conflict "Duplicate regno", some pairs⟩
  else
    let base : Row := ⟨newId, 0, false, none, none, 0, 0, none, none⟩
    ⟨.created (applyColumns base pairs), some pairs⟩

/- ## Read endpoints -/

/-- `parseInt(x, 10)` on a possibly undefined string; `none` is `NaN`. -/
def jsParseInt : Option String → Option Int
  | none => none
  | some s =>
    match s.toList with
    | '-' :: rest =>
      let d := rest.takeWhile Char.isDigit
      if d = [] then none else some (-(Int.ofNat (digitsVal d)))
    | l =>
      let d := l.takeWhile Char.isDigit
      if d = [] then none else some (Int.ofNat (digitsVal d))

/-- `GET /api/users/check-regno/:regno` (src/api/index.js:713-724):
`SELECT 1 FROM … WHERE regno = $1 LIMIT 1` — note the query has no
`is_deleted` condition. -/
def checkRegno (segment : String) (db : List Row) : Response :=
  match jsParseInt (some segment) with
  | none => .badRequest "Invalid regno"
  | some n => .okExists (db.any (fun r => r.regno == n))

/-- The parameters object Express builds for the route
`/api/users/:regno`: only the key `regno` is bound. -/
def fetchOneRouteParams (segment : String) : String → Option String :=
  fun k => if k = "regno" then some segment else none

/-- `GET /api/users/:regno` (src/api/index.js:727-747).  The handler
reads `req.params.id`, a key the route never binds, so the parsed id
is always `NaN`; the lookup/404/status logic below it is kept as in
the source. -/
def fetchOne (segment : String) (db : List Row) (now : Instant) : Response :=
  match jsParseInt (fetchOneRouteParams segment "id") with
  | none => .badRequest "Invalid ID"
  | some id =>
    match db.find? (fun r => r.id == id) with
    | none => .notFound "User not found"
    | some doc =>
      if doc.is_deleted then .notFound "User not found"
      else
        let isActive :=
          match doc.expiry_date with
          | none => false
          | some e => !(Instant.ltb e (startOfDay now))
        .okUser { doc with plan_status := some (if isActive then "active" else "expired") }

/- ## Update handler -/

/-- `updates.reg_date || currentDoc.reg_date` (src/api/index.js:772). -/
def updateEffRegDate (u : Body) (currentDoc : Row) : JSVal :=
  if jsTruthy (u "reg_date") then u "reg_date" else jsOfDateCol currentDoc.reg_date

/-- `(updates.plan || currentDoc.plan || "entry").toLowerCase()`
(src/api/index.js:773). -/
def updateEffPlan (u : Body) (currentDoc : Row) : String :=
  let planv :=
    if jsTruthy (u "plan") then u "plan"
    else if jsTruthy (jsOfStrCol currentDoc.plan) then jsOfStrCol currentDoc.plan
    else .str "entry"
  jsToLowerCase (match planv with | .str s => s | _ => "")

/-- The expiry triple recomputed by the update handler
(src/api/index.js:774). -/
def updateCalc (u : Body) (currentDoc : Row) (now : Instant) :
    Option Instant × Int × Int :=
  calculateexpiry_date (updateEffRegDate u currentDoc)
    (some (updateEffPlan u currentDoc)) now

/-- The update handler's recomputation step (src/api/index.js:771-780):
only when the updates carry a truthy `plan` or `reg_date` are
`expiry_date`, `amount`, `valid_days` and `plan_status` recomputed
(from the updated or stored registration date and plan). -/
def updateRecalc (updates : Body) (currentDoc : Row) (now : Instant) : Body :=
  if jsTruthy (updates "plan") || jsTruthy (updates "reg_date") then
    let c := updateCalc updates currentDoc now
    let u := bset updates "expiry_date" (jsOfParsed c.1)
    let u := bset u "amount" (.num c.2.1)
    let u := bset u "valid_days" (.num c.2.2)
    bset u "plan_status" (.str (jsToLowerCase (getplan_status (jsOfParsed c.1) now)))
  else updates

/-- The update handler's date normalization (src/api/index.js:757-758). -/
def updateNormBody (body : Body) (now : Instant) : Body :=
  let u := normalizeDateField body "reg_date" now
  normalizeDateField u "dob" now

/-- The update handler's body preparation: conditional date
normalization of `reg_date` and `dob`, then the recomputation step. -/
def updateProcessedBody (body : Body) (currentDoc : Row) (now : Instant) : Body :=
  updateRecalc (updateNormBody body now) currentDoc now

/-- `PUT /api/users/:regno` (src/api/index.js:750-890): parse the
registration number, fetch the current row, 404 when absent or
soft-deleted, process the body, build the SET clause from the
whitelist, 400 when it is empty, else update and respond with the
updated row.  (`updated_at = now()` is stamped by a fixed, system
clause outside the mapper and `updated_at` is not a modelled column;
the trailing reconciler call only re-issues the same status.) -/
def updateUser (segment : String) (body : Body) (db : List Row)
    (now : Instant) (storeOk : Bool) : WriteResult :=
  match jsParseInt (some segment) with
  | none => ⟨.badRequest "Invalid regno", none⟩
  | some regno =>
    match db.find? (fun r => r.regno == regno) with
    | none => ⟨.notFound "User not found for update", none⟩
    | some currentDoc =>
      if currentDoc.is_deleted then ⟨.notFound "User not found for update", none⟩
      else
        let pairs := buildPairs updateMapping (updateProcessedBody body currentDoc now)
        if pairs = [] then ⟨.badRequest "No valid fields provided for update", none⟩
        else
          let updated := applyColumns currentDoc pairs
          let _ := updateplan_statusInDB updated now storeOk
          ⟨.okUser updated, some pairs⟩

/- ## Renewals-due report -/

/-- A row of the renewals-due report: the underlying record, its
time-stripped expiry date, the days left and the status label. -/
structure DueUser where
  row : Row
  expiry_date : Instant
  daysLeft : Int
  plan_status : String
deriving DecidableEq

/-- One report entry (src/api/index.js:691-702): strip the expiry's
time-of-day, take the exact day difference to today (both instants are
midnights, so the source's `Math.ceil` of their millisecond quotient
is that integer), clamp `daysLeft` at 0 and label by the sign. -/
def annotateDue (r : Row) (e : Instant) (todayDay : Int) : DueUser :=
  let diff := e.day - todayDay
  ⟨r, ⟨e.day, 0⟩, if 0 ≤ diff then diff else 0,
    if 0 ≤ diff then "active" else "expired"⟩

/-- `GET /api/users/renewals-due` (src/api/index.js:677-710): select
non-deleted rows with a non-null expiry date, annotate each, and keep
those whose (stripped) expiry lies in `[today, today + days]`, with
`days` defaulting to 10. -/
def renewalsDue (db : List Row) (daysQ : Option Int) (now : Instant) :
    List DueUser :=
  let days := daysQ.getD 10
  let todayDay := now.day
  let limitDay := todayDay + days
  let rows := db.filter (fun r => !r.is_deleted && r.expiry_date.isSome)
  let dueUsers := rows.filterMap (fun u =>
    match u.expiry_date with
    | none => none
    | some e => some (annotateDue u e todayDay))
  dueUsers.filter (fun u => todayDay ≤ u.expiry_date.day && u.expiry_date.day ≤ limitDay)

/- ## Derived views used in the statements -/

/-- A current instant used by the concrete scenarios: day 20000 at
02:00. -/
def now0 : Instant := ⟨20000, 7200000⟩

/-- A stored row whose expiry (day 19999) passed but whose stored
status still says `active`. -/
def staleRow : Row :=
  ⟨1, 1, false, some "entry", none, 100, 10, some ⟨19999, 0⟩, some "active"⟩

/-- A stored, non-deleted gold row. -/
def goldRow : Row :=
  ⟨1, 7, false, some "gold", some ⟨19700, 0⟩, 2950, 180, some ⟨19880, 0⟩,
   some "active"⟩

/-- A soft-deleted row with registration number 7. -/
def deletedRow : Row :=
  ⟨2, 7, true, some "entry", none, 100, 10, none, none⟩

/-- A stored, non-deleted row with internal id 5. -/
def idFiveRow : Row :=
  ⟨5, 12, false, some "gold", some ⟨19700, 0⟩, 2950, 180, some ⟨20100, 0⟩,
   some "active"⟩

/-- A stored, non-deleted row expiring five days from `now0`. -/
def dueSoonRow : Row :=
  ⟨3, 8, false, some "entry", none, 100, 10, some ⟨20005, 0⟩, some "active"⟩

/-- A stored, non-deleted row that expired yesterday relative to
`now0`. -/
def expiredYesterdayRow : Row :=
  ⟨4, 9, false, some "entry", none, 100, 10, some ⟨19999, 0⟩, some "active"⟩

/-- A stored, non-deleted row with a `NULL` expiry date whose stored
status says `expired`. -/
def nullExpiryStaleRow : Row :=
  ⟨6, 10, false, some "entry", none, 100, 10, none, some "expired"⟩

/-- A body with no whitelisted key at all. -/
def strangerBody : Body := fun k => if k = "hacker" then .str "x" else .undefined

/- ## Helper lemmas -/

/-- The classifier on a valid `Date` compares calendar days only: the
time-of-day of the expiry never changes the outcome, because the
right-hand side of the comparison is a midnight. -/
theorem getplan_status_date (e now : Instant) :
    getplan_status (.date e) now = if e.day < now.day then "expired" else "active" := by
  show (if Instant.ltb e (startOfDay now) then "expired" else "active") = _
  have h : Instant.ltb e (startOfDay now) = decide (e.day < now.day) := by
    simp [Instant.ltb, startOfDay]
  rw [h]
  by_cases hd : e.day < now.day <;> simp [hd]

/-- On a falsy input the normalizer returns the current instant. -/
theorem parseAnyDate_falsy (v : JSVal) (now : Instant) (h : jsTruthy v = false) :
    parseAnyDate v now = some now := by
  unfold parseAnyDate
  rw [h]
  rfl

/-- The classifier only ever produces the two status labels. -/
theorem getplan_status_cases (v : JSVal) (now : Instant) :
    getplan_status v now = "active" ∨ getplan_status v now = "expired" := by
  unfold getplan_status
  rcases parseAnyDate v now with _ | e
  · exact Or.inl rfl
  · by_cases h : Instant.ltb e (startOfDay now) <;> simp [h]

/- ## Claim C5 — expiry calculator -/

/-- Claim C6: for every expiry date, the classifier returns `"active"`
exactly when the expiry is on or after the start of the current
calendar day (a comparison that depends only on the two calendar days,
i.e. with the time-of-day stripped on both sides), and `"expired"`
otherwise; an expiry on today's or tomorrow's calendar day is active,
yesterday's is expired. -/
theorem C6_status_classifier (e now : Instant) :
    (getplan_status (.date e) now = "active" ↔ now.day ≤ e.day) ∧
    (getplan_status (.date e) now = "expired" ↔ e.day < now.day) ∧
    (e.day = now.day → getplan_status (.date e) now = "active") ∧
    (e.day = now.day + 1 → getplan_status (.date e) now = "active") ∧
    (e.day = now.day - 1 → getplan_status (.date e) now = "expired") := by
  rw [getplan_status_date]
  by_cases h : e.day < now.day <;> simp [h] <;> omega

/-- Witness for C6: an expiry late on today's calendar day is active
even though the instant `now` is earlier in the day. -/
theorem C6_status_classifier_witness :
    getplan_status (.date ⟨20000, 86000000⟩) ⟨20000, 1000⟩ = "active" :=
  (C6_status_classifier ⟨20000, 86000000⟩ ⟨20000, 1000⟩).2.2.1 rfl

/- ## Claim C7 — date normalizer round trip -/

/-- Claim C7: the four input strings `"15-03-2023"`, `"15/3/2023"`,
`"15-Mar-23"` and `"15-Mar-2023"` all normalize to the same calendar
date, 2023-03-15 (midnight of civil day 19431). -/
theorem C7_date_normalizer (now : Instant) :
    parseAnyDate (.str "15-03-2023") now = mkCivil 2023 3 15 ∧
    parseAnyDate (.str "15/3/2023") now = mkCivil 2023 3 15 ∧
    parseAnyDate (.str "15-Mar-23") now = mkCivil 2023 3 15 ∧
    parseAnyDate (.str "15-Mar-2023") now = mkCivil 2023 3 15 ∧
    mkCivil 2023 3 15 = some ⟨19431, 0⟩ :=
  ⟨rfl, rfl, rfl, rfl, by decide⟩

/-- Witness for C7 at a concrete current instant. -/
theorem C7_date_normalizer_witness :
    parseAnyDate (.str "15-Mar-23") ⟨20000, 123⟩ = some ⟨19431, 0⟩ :=
  ((C7_date_normalizer ⟨20000, 123⟩).2.2.1).trans
    (C7_date_normalizer ⟨20000, 123⟩).2.2.2.2

/- ## Claim C10 — falsy expiry dates classify as active -/

/-- Claim C10 (corrected): every falsy expiry-date input (absent,
`null`, empty string, `0`, `false`) normalizes to the current instant,
which is never before the start of today, so the classifier returns
`"active"`; the list path therefore reports status `"active"` for a
stored record whose expiry date is `NULL` whenever the reconciling
write-back succeeds — when that write fails, the stale stored status
is returned to the caller instead (see the counterexample and C1). -/
theorem C10_falsy_expiry_active (v : JSVal) (now : Instant) (r : Row)
    (hfalsy : jsTruthy v = false) (hid : r.id ≠ 0) (hexp : r.expiry_date = none) :
    parseAnyDate v now = some now ∧
    getplan_status v now = "active" ∧
    updateplan_statusInDB r now true = some "active" ∧
    (listReconcileRow r now true).plan_status = some "active" := by
  have hparse := parseAnyDate_falsy v now hfalsy
  have hnlt : Instant.ltb now (startOfDay now) = false := by
    simp [Instant.ltb, startOfDay]
  have hstat : getplan_status v now = "active" := by
    simp [getplan_status, hparse, hnlt]
  have hnullstat : getplan_status (jsOfDateCol r.expiry_date) now = "active" := by
    rw [hexp]
    simp [getplan_status, jsOfDateCol, parseAnyDate_falsy .null now rfl, hnlt]
  have hal : jsToLowerCase "active" = "active" := by decide
  have hupd : updateplan_statusInDB r now true = some "active" := by
    unfold updateplan_statusInDB
    rw [if_neg hid, hnullstat]
    by_cases hs : ("active" : String) ≠ jsToLowerCase (r.plan_status.getD "") <;>
      simp [hs, hal]
  refine ⟨hparse, hstat, hupd, ?_⟩
  unfold listReconcileRow
  rw [hupd]
  rfl

/-- Counterexample for C10 as stated: the list path does not report
`"active"` for *every* null-expiry record — on the row with a `NULL`
expiry date and stored status `"expired"`, a failing correcting write
makes the list path report `"expired"`, even though the freshly
computed status of the null expiry is `"active"`. -/
theorem C10_counterexample :
    nullExpiryStaleRow.expiry_date = none ∧
    getplan_status (jsOfDateCol nullExpiryStaleRow.expiry_date) now0 = "active" ∧
    (listReconcileRow nullExpiryStaleRow now0 false).plan_status = some "expired" ∧
    (some "expired" : Option String) ≠ some "active" := by
  refine ⟨by decide, by decide, by decide, by decide⟩

/-- Witness for C10 (amended): a `NULL` expiry date on a row whose
stored status is `"expired"` is reported as `"active"` by the list
path when the write-back succeeds. -/
theorem C10_falsy_expiry_active_witness :
    getplan_status .null ⟨20000, 555⟩ = "active" ∧
    (listReconcileRow ⟨4, 9, false, some "entry", none, 100, 10, none, some "expired"⟩
        ⟨20000, 555⟩ true).plan_status = some "active" :=
  ⟨(C10_falsy_expiry_active .null ⟨20000, 555⟩
      ⟨4, 9, false, some "entry", none, 100, 10, none, some "expired"⟩
      rfl (by decide) rfl).2.1,
   (C10_falsy_expiry_active .null ⟨20000, 555⟩
      ⟨4, 9, false, some "entry", none, 100, 10, none, some "expired"⟩
      rfl (by decide) rfl).2.2.2⟩

/- ## Shared lemmas about the field mapper and the reconciler -/

/-- Reading the key just written. -/
theorem bset_same (b : Body) (k : String) (v : JSVal) : bset b k v k = v := by
  simp [bset]

/-- Reading another key. -/
theorem bset_other (b : Body) (k : String) (v : JSVal) (k' : String) (h : k' ≠ k) :
    bset b k v k' = b k' := by
  simp [bset, h]

/-- The built statement is exactly the whitelist filtered to the keys
the body defines, each key replaced by its column and its value — in
whitelist order with values taken verbatim from the body. -/
theorem buildPairs_eq (m : List (String × String)) (b : Body) :
    buildPairs m b =
      (m.filter (fun kc => b kc.1 != .undefined)).map (fun kc => (kc.2, b kc.1)) := by
  induction m with
  | nil => rfl
  | cons kc rest ih =>
    by_cases h : b kc.1 = .undefined
    · simp [buildPairs, h, ih]
    · simp [buildPairs, h, ih]

/-- The list path's reconciliation only rewrites `plan_status`. -/
theorem listReconcileRow_is_deleted (r : Row) (now : Instant) (ok : Bool) :
    (listReconcileRow r now ok).is_deleted = r.is_deleted := by
  unfold listReconcileRow
  rcases updateplan_statusInDB r now ok with _ | s
  · rfl
  · by_cases h : s = "" <;> simp [h]

/- ## Claim C1 — reconciler write-back failure -/

/-- Claim C1 (corrected): when the correcting write fails, the read
does not fail — the `catch` swallows the store error and a status is
still returned — but the value returned to the caller is the
lowercased *stored* status (`"expired"` when no status is stored),
not the freshly computed one. -/
theorem C1_write_failure_returns_stored (row : Row) (now : Instant)
    (hid : row.id ≠ 0) :
    updateplan_statusInDB row now false =
      some (jsToLowerCase (if row.plan_status.getD "" = "" then "expired"
             else row.plan_status.getD "")) ∧
    (∃ s, updateplan_statusInDB row now false = some s) ∧
    (listReconcileRow row now false).is_deleted = row.is_deleted := by
  have hmain : updateplan_statusInDB row now false =
      some (jsToLowerCase (if row.plan_status.getD "" = "" then "expired"
             else row.plan_status.getD "")) := by
    simp only [updateplan_statusInDB, if_neg hid]
    by_cases hne : getplan_status (jsOfDateCol row.expiry_date) now
        ≠ jsToLowerCase (row.plan_status.getD "")
    · rw [if_pos hne]
      rfl
    · rw [if_neg hne]
      push_neg at hne
      have hgd : row.plan_status.getD "" ≠ "" := by
        intro h0
        rw [h0] at hne
        rcases getplan_status_cases (jsOfDateCol row.expiry_date) now with h | h <;>
          rw [h] at hne <;> exact absurd hne (by decide)
      rw [if_neg hgd, ← hne]
      rcases getplan_status_cases (jsOfDateCol row.expiry_date) now with h | h <;>
        rw [h] <;> decide
  exact ⟨hmain, ⟨_, hmain⟩, listReconcileRow_is_deleted row now false⟩

/-- Counterexample for C1 as stated: on `staleRow` the freshly
computed status is `"expired"`, yet with a failing write the reconciler
returns `"active"` (the stale stored status), so the freshly computed
status is not what the caller receives. -/
theorem C1_counterexample :
    updateplan_statusInDB staleRow now0 false = some "active" ∧
    getplan_status (jsOfDateCol staleRow.expiry_date) now0 = "expired" ∧
    ("active" : String) ≠ "expired" := by
  refine ⟨by decide, by decide, by decide⟩

/-- Witness for C1 (amended) at the concrete stale row. -/
theorem C1_write_failure_returns_stored_witness :
    updateplan_statusInDB staleRow now0 false = some "active" :=
  ((C1_write_failure_returns_stored staleRow now0 (by decide)).1).trans (by decide)

/- ## Claim C2 — fetch-one parameter-name bug -/

/-- Claim C2 (code bug): the route is declared `/api/users/:regno` but
the handler parses `req.params.id`, which is never bound, so *every*
request — including a well-formed numeric identifier of an existing,
non-deleted record — receives the 400 `Invalid ID` validation error,
never the record and never a 404. -/
theorem C2_fetch_one_always_rejects :
    (∀ (seg : String) (db : List Row) (now : Instant),
        fetchOne seg db now = .badRequest "Invalid ID") ∧
    fetchOne "5" [idFiveRow] now0 = .badRequest "Invalid ID" ∧
    idFiveRow.id = 5 ∧ idFiveRow.is_deleted = false :=
  ⟨fun _ _ _ => rfl, by decide, by decide, by decide⟩

/- ## Claim C4 — visibility of soft-deleted records -/

/-- Claim C4 (corrected): a soft-deleted record is excluded from the
list operation (whatever further filters apply), and every row the
list returns is non-deleted; but the existence check does *not* treat
it as absent — its query has no `is_deleted` condition, so a
soft-deleted record's registration number reports `exists = true` —
and fetch-one answers every request (soft-deleted or not) with the 400
validation error of C2 rather than a 404. -/
theorem C4_soft_deleted_visibility (db : List Row) (extra : Row → Bool)
    (r : Row) (now : Instant) (ok : Bool) (seg : String) (n : Int)
    (hdel : r.is_deleted = true) :
    r ∉ listWhere db extra ∧
    (∀ u ∈ listUsers db extra now ok, u.is_deleted = false) ∧
    (r ∈ db → jsParseInt (some seg) = some n → r.regno = n →
      checkRegno seg db = .okExists true) ∧
    (∀ s2 : String, fetchOne s2 db now = .badRequest "Invalid ID") := by
  refine ⟨?_, ?_, ?_, fun s2 => rfl⟩
  · intro hmem
    rw [listWhere, List.mem_filter] at hmem
    rw [hdel] at hmem
    simp at hmem
  · intro u hu
    rw [listUsers, List.mem_map] at hu
    obtain ⟨r0, hr0, hru⟩ := hu
    rw [listWhere, List.mem_filter] at hr0
    have hnd : r0.is_deleted = false := by
      have hb := hr0.2
      simp only [Bool.and_eq_true, Bool.not_eq_true'] at hb
      exact hb.1
    rw [← hru, listReconcileRow_is_deleted]
    exact hnd
  · intro hmem hseg hreg
    simp only [checkRegno, hseg]
    have : db.any (fun q => q.regno == n) = true :=
      List.any_eq_true.mpr ⟨r, hmem, by simp [hreg]⟩
    rw [this]

/-- Counterexample for C4 as stated: the existence check reports
`exists = true` for a database whose only record with registration
number 7 is soft-deleted, where the claim requires `exists = false`. -/
theorem C4_counterexample :
    checkRegno "7" [deletedRow] = .okExists true ∧
    deletedRow.is_deleted = true ∧
    Response.okExists true ≠ Response.okExists false := by
  refine ⟨by decide, by decide, by decide⟩

/-- Witness for C4 (amended) on the concrete soft-deleted row. -/
theorem C4_soft_deleted_visibility_witness :
    deletedRow ∉ listWhere [deletedRow] (fun _ => true) ∧
    checkRegno "7" [deletedRow] = .okExists true :=
  ⟨(C4_soft_deleted_visibility [deletedRow] (fun _ => true) deletedRow now0 true
      "7" 7 (by decide)).1,
   (C4_soft_deleted_visibility [deletedRow] (fun _ => true) deletedRow now0 true
      "7" 7 (by decide)).2.2.1 (by decide) (by decide) (by decide)⟩

/- ## Claim C3 — plan-table consistency of persisted values -/

/-- Claim C8: for every partial input record the mapper emits exactly
the whitelist entries whose key the input defines — so only statically
configured column names, in whitelist order, each value bound as a
parameter — extra keys outside the whitelist never change the emitted
statement; and when the mapper's input defines no whitelisted key both
the create and the update operation answer with a 400 validation error
and issue no store statement. -/
theorem C8_field_mapper_whitelist :
    (∀ (m : List (String × String)) (b : Body),
      buildPairs m b =
        (m.filter (fun kc => b kc.1 != .undefined)).map (fun kc => (kc.2, b kc.1))) ∧
    (∀ (m : List (String × String)) (b : Body),
      ((buildPairs m b).map Prod.fst).Sublist (m.map Prod.snd)) ∧
    (∀ (m : List (String × String)) (b : Body) (c : String),
      c ∈ (buildPairs m b).map Prod.fst → c ∈ m.map Prod.snd) ∧
    (∀ (m : List (String × String)) (b : Body) (k : String) (v : JSVal),
      k ∉ m.map Prod.fst → buildPairs m (bset b k v) = buildPairs m b) ∧
    (∀ (body : Body) (now : Instant) (newId : Int) (dup : Bool),
      buildPairs createMapping (createAugBody body now) = [] →
      createUser body now newId dup = ⟨.badRequest "No fields provided", none⟩) ∧
    (∀ (seg : String) (body : Body) (db : List Row) (now : Instant) (ok : Bool)
        (n : Int) (doc : Row),
      jsParseInt (some seg) = some n →
      db.find? (fun r => r.regno == n) = some doc →
      doc.is_deleted = false →
      buildPairs updateMapping (updateProcessedBody body doc now) = [] →
      updateUser seg body db now ok =
        ⟨.badRequest "No valid fields provided for update", none⟩) := by
  have hsub : ∀ (m : List (String × String)) (b : Body),
      ((buildPairs m b).map Prod.fst).Sublist (m.map Prod.snd) := by
    intro m b
    rw [buildPairs_eq, List.map_map]
    have hcomp : (Prod.fst ∘ fun kc : String × String => (kc.2, b kc.1)) =
        Prod.snd := rfl
    rw [hcomp]
    exact (List.filter_sublist m).map Prod.snd
  refine ⟨buildPairs_eq, hsub, ?_, ?_, ?_, ?_⟩
  · intro m b c hc
    exact (hsub m b).subset hc
  · intro m b k v hk
    induction m with
    | nil => rfl
    | cons kc rest ih =>
      simp only [List.map_cons, List.mem_cons, not_or] at hk
      obtain ⟨hk1, hk2⟩ := hk
      have hb : bset b k v kc.1 = b kc.1 := bset_other b k v kc.1 (Ne.symm hk1)
      have ih' := ih hk2
      simp only [buildPairs, hb, ih']
  · intro body now newId dup h
    simp [createUser, h]
  · intro seg body db now ok n doc hseg hfind hdel h
    simp [updateUser, hseg, hfind, hdel, h]

/-- Witness for C8: a body whose only key is outside the whitelist
makes the update operation fail with the 400 validation error and
issue no statement. -/
theorem C8_field_mapper_whitelist_witness :
    updateUser "7" strangerBody [goldRow] now0 true =
      ⟨.badRequest "No valid fields provided for update", none⟩ :=
  C8_field_mapper_whitelist.2.2.2.2.2 "7" strangerBody [goldRow] now0 true 7
    goldRow (by decide) (by decide) (by decide) (by decide)

/- ## Claim C9 — renewals-due report -/

/-- Claim C9: with horizon `h` (defaulting to 10 when the query carries
no value) the report returns exactly the non-deleted records whose
(stripped) expiry date lies within `[today, today + h]` inclusive;
each annotation carries `daysLeft = max 0 (expiry - today)` in days
and the label `"active"` for a non-negative day difference,
`"expired"` otherwise — so every reported record (its difference being
non-negative by the window) is labelled active, a record expiring
`today + 5` appears with `daysLeft = 5`, and one that expired
yesterday is excluded entirely. -/
theorem C9_renewals_due (db : List Row) (daysQ : Option Int) (now : Instant) :
    (renewalsDue db none now = renewalsDue db (some 10) now) ∧
    (∀ (r : Row) (e : Instant) (d : Int),
      (annotateDue r e d).daysLeft = max 0 (e.day - d) ∧
      (annotateDue r e d).plan_status =
        (if 0 ≤ e.day - d then "active" else "expired")) ∧
    (∀ u ∈ renewalsDue db daysQ now,
      u.row.is_deleted = false ∧
      ∃ e, u.row.expiry_date = some e ∧ u = annotateDue u.row e now.day ∧
        now.day ≤ e.day ∧ e.day ≤ now.day + daysQ.getD 10 ∧
        u.daysLeft = e.day - now.day ∧ u.plan_status = "active") ∧
    (∀ r ∈ db, r.is_deleted = false → ∀ e, r.expiry_date = some e →
      now.day ≤ e.day → e.day ≤ now.day + daysQ.getD 10 →
      annotateDue r e now.day ∈ renewalsDue db daysQ now) ∧
    (∀ r ∈ db, ∀ e, r.expiry_date = some e → e.day < now.day →
      ∀ u ∈ renewalsDue db daysQ now, u.row ≠ r) := by
  have hfwd : ∀ u ∈ renewalsDue db daysQ now,
      u.row.is_deleted = false ∧
      ∃ e, u.row.expiry_date = some e ∧ u = annotateDue u.row e now.day ∧
        now.day ≤ e.day ∧ e.day ≤ now.day + daysQ.getD 10 ∧
        u.daysLeft = e.day - now.day ∧ u.plan_status = "active" := by
    intro u hu
    simp only [renewalsDue] at hu
    rw [List.mem_filter] at hu
    obtain ⟨hu1, hpred⟩ := hu
    rw [List.mem_filterMap] at hu1
    obtain ⟨r0, hr0, hf⟩ := hu1
    rw [List.mem_filter] at hr0
    obtain ⟨hr0db, hg⟩ := hr0
    simp only [Bool.and_eq_true, Bool.not_eq_true'] at hg
    obtain ⟨hnd, hsome⟩ := hg
    obtain ⟨e, hexp⟩ := Option.isSome_iff_exists.mp hsome
    rw [hexp] at hf
    have hue : u = annotateDue r0 e now.day := (Option.some_injective _ hf).symm
    have hrow : u.row = r0 := by rw [hue]; rfl
    have huexp : u.expiry_date = ⟨e.day, 0⟩ := by rw [hue]; rfl
    rw [huexp] at hpred
    simp only [Bool.and_eq_true, decide_eq_true_eq] at hpred
    obtain ⟨hlo, hhi⟩ := hpred
    have hdiff : (0 : Int) ≤ e.day - now.day := by omega
    refine ⟨by rw [hrow]; exact hnd, e, by rw [hrow]; exact hexp,
      by rw [hrow]; exact hue, hlo, hhi, ?_, ?_⟩
    · rw [hue]
      simp [annotateDue, hdiff]
    · rw [hue]
      simp [annotateDue, hdiff]
  refine ⟨rfl, ?_, hfwd, ?_, ?_⟩
  · intro r e d
    constructor
    · show (if 0 ≤ e.day - d then e.day - d else 0) = max 0 (e.day - d)
      omega
    · rfl
  · intro r hr hnd e hexp hlo hhi
    simp only [renewalsDue]
    rw [List.mem_filter]
    constructor
    · rw [List.mem_filterMap]
      refine ⟨r, ?_, ?_⟩
      · rw [List.mem_filter]
        exact ⟨hr, by simp [hnd, hexp]⟩
      · rw [hexp]
    · show (decide (now.day ≤ (annotateDue r e now.day).expiry_date.day) &&
        decide ((annotateDue r e now.day).expiry_date.day ≤ now.day + daysQ.getD 10)) = true
      simp only [annotateDue]
      simp [hlo, hhi]
  · intro r hr e hexp hlt u hu hru
    obtain ⟨_, e', hexp', _, hlo', _⟩ := hfwd u hu
    rw [hru, hexp] at hexp'
    have he : e' = e := Option.some_injective _ hexp'.symm
    rw [he] at hlo'
    omega

/-- Witness for C9: against `now0` (day 20000), the row expiring on
day 20005 is reported with `daysLeft = 5` and status `"active"`, and
no report entry stems from the row that expired on day 19999. -/
theorem C9_renewals_due_witness :
    annotateDue dueSoonRow ⟨20005, 0⟩ 20000 ∈
      renewalsDue [dueSoonRow, expiredYesterdayRow] (some 10) now0 ∧
    (annotateDue dueSoonRow ⟨20005, 0⟩ 20000).daysLeft = 5 ∧
    (annotateDue dueSoonRow ⟨20005, 0⟩ 20000).plan_status = "active" ∧
    (∀ u ∈ renewalsDue [dueSoonRow, expiredYesterdayRow] (some 10) now0,
      u.row ≠ expiredYesterdayRow) :=
  ⟨(C9_renewals_due [dueSoonRow, expiredYesterdayRow] (some 10) now0).2.2.2.1
      dueSoonRow (by decide) (by decide) ⟨20005, 0⟩ (by decide) (by decide)
      (by decide),
   by decide, by decide,
   (C9_renewals_due [dueSoonRow, expiredYesterdayRow] (some 10) now0).2.2.2.2
      expiredYesterdayRow (by decide) ⟨19999, 0⟩ (by decide) (by decide)⟩

end T1
